import Mathlib

/-!
Verification of the galore signal-processing core (resampling, broadening,
cross-section weighting) against its specification.

The repository carries two revisions of the core module:
  * `galore/__init__.py` - the importable module (older revision); its
    definitions are embedded below with a `_v0` suffix;
  * `galore/.ipynb_checkpoints/__init__-checkpoint.py` - a newer revision of
    the same functions, matching the shipped test-suite
    (`test/test.py`, `test/test_process_pdos.py`); its definitions carry the
    plain source names.

Numeric model: Python float arithmetic is embedded as exact rational
arithmetic over `ℚ`.  The constant `numpy.pi` is embedded as the exact
rational value of the IEEE-754 double it denotes.  `numpy.exp` and the
constant `sqrt(2*log 2)` (used only to build Gaussian kernel values, which no
claim inspects) are collaborator functions; they are abstracted as the
`FloatFns` parameter threaded through the kernels.
-/

set_option maxHeartbeats 1000000
set_option maxRecDepth 4000

namespace Galore

/-- Exact rational value of the IEEE-754 double `numpy.pi`
(0x400921FB54442D18 = 884279719003555 * 2^-48). -/
def np_pi : ℚ := 884279719003555 / 281474976710656

/-- Abstracted numeric collaborators: `numpy.exp` and the constant
`sqrt(2*log(2))` used by the Gaussian kernel.  No claim depends on Gaussian
kernel values, so these stay abstract parameters. -/
structure FloatFns where
  exp : ℚ → ℚ
  sqrt2log2 : ℚ

/-- A concrete instantiation of the abstract collaborators, used by witnesses. -/
def idFns : FloatFns := ⟨fun x => x, 1⟩

/-- Model of `numpy.arange(start, stop, step)` for positive step:
the values `start + k*step` for `0 ≤ k < ⌈(stop-start)/step⌉`. -/
def npArange (start stop step : ℚ) : List ℚ :=
  (List.range ⌈(stop - start) / step⌉₊).map (fun (k : ℕ) => start + (k : ℚ) * step)

/-- Model of `numpy.searchsorted(grid, v)` (side given as left) on an
ascending grid: the number of grid entries strictly below `v`, i.e. the
left insertion point. -/
def searchsorted (grid : List ℚ) (v : ℚ) : ℕ :=
  (grid.takeWhile (fun g => decide (g < v))).length

/-- One `spikes[location] += value` update from `xy_to_1d`
(`galore/__init__.py` line 263 / checkpoint line 293). -/
def addSpike (spikes : List ℚ) (loc : ℕ) (v : ℚ) : List ℚ :=
  spikes.set loc (spikes.getD loc 0 + v)

/-- One iteration of the spike-placement loop of `xy_to_1d`: the point is
dropped when its insertion index is 0 or `len(grid)`, otherwise its y-value
is accumulated into the located cell. -/
def spikeStep (grid : List ℚ) (d : ℚ) (spikes : List ℚ) (p : ℚ × ℚ) : List ℚ :=
  let loc := searchsorted grid (p.1 - 0.5 * d)
  if loc = 0 ∨ loc = grid.length then spikes else addSpike spikes loc p.2

/-- The spike-placement pass of `xy_to_1d` (both revisions share this code):
start from `np.zeros(len(grid))` and fold the update over the points. -/
def spikeResample (grid : List ℚ) (d : ℚ) (xy : List (ℚ × ℚ)) : List ℚ :=
  xy.foldl (spikeStep grid d) (List.replicate grid.length 0)

/-- Insertion of one point into a list sorted by x-coordinate; part of the
model of `scipy.interpolate.interp1d` with unsorted input allowed. -/
def insertByX (p : ℚ × ℚ) : List (ℚ × ℚ) → List (ℚ × ℚ)
  | [] => [p]
  | q :: rest => if p.1 ≤ q.1 then p :: q :: rest else q :: insertByX p rest

/-- Sorting a point set by x-coordinate; models the argsort performed by
`interp1d` when it is built with sortedness not assumed. -/
def sortByX : List (ℚ × ℚ) → List (ℚ × ℚ)
  | [] => []
  | p :: rest => insertByX p (sortByX rest)

/-- Evaluation of the piecewise-linear interpolant of an x-sorted point list,
with fill value 0 outside the data range; models the interpolant built by
`interp1d(..., bounds_error=False, fill_value=0)` in the checkpoint
revision of `xy_to_1d`. -/
def interpPts : List (ℚ × ℚ) → ℚ → ℚ
  | [], _ => 0
  | [_], _ => 0
  | p :: q :: rest, t =>
    if t < p.1 then 0
    else if t ≤ q.1 then p.2 + (q.2 - p.2) * (t - p.1) / (q.1 - p.1)
    else interpPts (q :: rest) t

/-- Checkpoint revision of `xy_to_1d(xy, x_values, spikes)` (lines 255-301):
reads the step from the first two grid entries (an IndexError on shorter
grids), then either spike-places or linearly interpolates.  The interpolate
branch fails like `interp1d` does when fewer than two points are given. -/
def xy_to_1d (xy : List (ℚ × ℚ)) (x_values : List ℚ) (spikes : Bool) :
    Except String (List ℚ) :=
  if 2 ≤ x_values.length then
    let d := x_values.getD 1 0 - x_values.getD 0 0
    if spikes then
      Except.ok (spikeResample x_values d xy)
    else
      if xy.length < 2 then
        Except.error "ValueError: x and y arrays must have at least 2 entries"
      else
        Except.ok (x_values.map (interpPts (sortByX xy)))
  else Except.error "IndexError: x_values has fewer than 2 entries"

/-- Old-revision `xy_to_1d(xy, x_values)` (`galore/__init__.py` lines
233-265): no mode argument, always spike placement. -/
def xy_to_1d_v0 (xy : List (ℚ × ℚ)) (x_values : List ℚ) :
    Except String (List ℚ) :=
  if 2 ≤ x_values.length then
    let d := x_values.getD 1 0 - x_values.getD 0 0
    Except.ok (spikeResample x_values d xy)
  else Except.error "IndexError: x_values has fewer than 2 entries"

/-- Old-revision Lorentzian (`galore/__init__.py` lines 276-278):
`0.5 * gamma / (np.pi * (f - f0)**2 + (0.5 * gamma)**2)` - note that `np.pi`
multiplies only the squared offset, not the whole sum. -/
def lorentzian_v0 (f f0 gamma : ℚ) : ℚ :=
  0.5 * gamma / (np_pi * (f - f0) ^ 2 + (0.5 * gamma) ^ 2)

/-- Checkpoint revision of the Lorentzian kernel (lines 312-322):
`0.5 * fwhm / (np.pi * ((f - f0)**2 + (0.5 * fwhm)**2))`. -/
def lorentzian (f f0 fwhm : ℚ) : ℚ :=
  0.5 * fwhm / (np_pi * ((f - f0) ^ 2 + (0.5 * fwhm) ^ 2))

/-- Checkpoint revision of the Gaussian kernel (lines 325-335):
`c = fwhm / (2*sqrt(2*log 2))`, value `exp(-(f-f0)^2 / (2*c^2))`, with the
transcendental collaborators abstracted in `fns`. -/
def gaussian (fns : FloatFns) (f f0 fwhm : ℚ) : ℚ :=
  let c := fwhm / (2 * fns.sqrt2log2)
  fns.exp (-(f - f0) ^ 2 / (2 * c ^ 2))

/-- The two broadening distributions accepted by `broaden` (an unknown name
raises; no claim exercises that branch). -/
inductive Dist
  | lorentzian
  | gaussian
deriving DecidableEq

/-- Python truthiness of an optional float argument: `None` and `0.0` are
falsy, everything else truthy.  Used by the `if lorentzian:` / `if gaussian:`
/ `if not pad:` tests in the source. -/
def truthy : Option ℚ → Bool
  | none => false
  | some v => decide (v ≠ 0)

/-- Full discrete convolution `numpy.convolve(a, v)`:
output length `len(a) + len(v) - 1`, entry `k` equal to
`sum_j a[j] * v[k-j]` over indices in range. -/
def npConvolve (a v : List ℚ) : List ℚ :=
  (List.range (a.length + v.length - 1)).map
    (fun k => ((List.range (k + 1)).map (fun j => a.getD j 0 * v.getD (k - j) 0)).sum)

/-- Effective pad used by `broaden`: the `pad` argument when truthy,
otherwise `width * 20` (source: `if not pad: pad = width * 20`). -/
def effPad (width : ℚ) (pad : Option ℚ) : ℚ :=
  if truthy pad then pad.getD 0 else width * 20

/-- Model of `broaden(data, dist, width, pad, d)` (identical structure in both
revisions, lines 286-316 and 338-369): build the kernel on
`np.arange(-pad, pad, d)`, convolve in full, and slice
`[int(pad/d) : len(data) + int(pad/d)]`. -/
def broaden (fns : FloatFns) (data : List ℚ) (dist : Dist) (width : ℚ)
    (pad : Option ℚ) (d : ℚ) : List ℚ :=
  let p := effPad width pad
  let domain := npArange (-p) p d
  let kernel :=
    match dist with
    | Dist.lorentzian => domain.map (fun f => lorentzian f 0 width)
    | Dist.gaussian => domain.map (fun f => gaussian fns f 0 width)
  let pad_points := ⌊p / d⌋₊
  ((npConvolve kernel data).drop pad_points).take data.length

/-- Model of `data.copy()`: a structurally fresh list with the same values. -/
def npCopy (data : List ℚ) : List ℚ := data.map id

/-- The broadening stage shared by `process_1d_data` (lines 107-116 of the
module, 114-123 of the checkpoint) and `process_pdos`: copy the resampled
data, then broaden with the Lorentzian width if truthy, then with the
Gaussian width if truthy.  This is the `apply_broadening` contract of the
specification. -/
def apply_broadening (fns : FloatFns) (data : List ℚ) (d : ℚ)
    (lor gauss : Option ℚ) : List ℚ :=
  let b0 := npCopy data
  let b1 := if truthy lor then broaden fns b0 Dist.lorentzian (lor.getD 0) none d else b0
  if truthy gauss then broaden fns b1 Dist.gaussian (gauss.getD 0) none d else b1

/-- An OrbitalSeries / PDOS table: insertion-ordered mapping from element
symbol to an insertion-ordered mapping from label (the reserved label
given as energy, or an orbital) to a 1-D series. -/
abbrev PdosData := List (String × List (String × List ℚ))

/-- A cross-section table: element symbol to orbital label to optional
weight (a missing value models JSON null). -/
abbrev CrossSections := List (String × List (String × Option ℚ))

/-- Checkpoint revision of `apply_orbital_weights` (lines 372-444): an
element absent from the table raises (the warning-metadata access
`cross_sections[el]` at loop top); a missing orbital key is logged and the
orbital skipped; a null weight drops the orbital silently; otherwise the
series is scaled; the energy entry is copied through. -/
def apply_orbital_weights (pdos : PdosData) (cs : CrossSections) :
    Except String PdosData :=
  pdos.mapM (fun elOrb =>
    match cs.lookup elOrb.1 with
    | none => Except.error "KeyError: element missing from cross-sections"
    | some elcs =>
      Except.ok (elOrb.1,
        elOrb.2.foldl (fun acc orbData =>
          if orbData.1 = "energy" then acc ++ [orbData]
          else
            match elcs.lookup orbData.1 with
            | none => acc
            | some none => acc
            | some (some c) => acc ++ [(orbData.1, orbData.2.map (fun y => y * c))])
          []))

/-- Old-revision `apply_orbital_weights` (`galore/__init__.py` lines
343-400): the lookup `cross_sections[el][orbital]` is wrapped in a
try/except that re-raises the KeyError, so a missing element or orbital key
is fatal; a null weight still drops the orbital silently. -/
def apply_orbital_weights_v0 (pdos : PdosData) (cs : CrossSections) :
    Except String PdosData :=
  pdos.mapM (fun elOrb => do
    let weighted ← elOrb.2.foldlM (fun acc orbData =>
      if orbData.1 = "energy" then Except.ok (acc ++ [orbData])
      else
        match (cs.lookup elOrb.1).bind (fun elcs => elcs.lookup orbData.1) with
        | none => Except.error "KeyError: could not find cross-section data"
        | some none => Except.ok acc
        | some (some c) => Except.ok (acc ++ [(orbData.1, orbData.2.map (fun y => y * c))]))
      []
    Except.ok (elOrb.1, weighted))

/-- Minimum of a list (`min(data)`); the source raises on an empty list,
which the pipeline rules out before calling. -/
def minQ : List ℚ → ℚ
  | [] => 0
  | x :: xs => xs.foldl min x

/-- Maximum of a list (`max(data)`). -/
def maxQ : List ℚ → ℚ
  | [] => 0
  | x :: xs => xs.foldl max x

/-- Model of `auto_limits(data_1d, padding)`: the data range padded on both sides by
`padding * (xmax - xmin)`. -/
def auto_limits (data : List ℚ) (padding : ℚ) : ℚ × ℚ :=
  let xmin := minQ data
  let xmax := maxQ data
  (xmin - padding * (xmax - xmin), xmax + padding * (xmax - xmin))

/-- The sampling grid built by `process_pdos`: per-element auto-limits with
5 percent padding, overridden by explicit limits, the pair swapped and
negated when `flipx` is set, then `np.arange(xmin, xmax, d)`. -/
def pdos_x_values (pdos : PdosData) (sampling : ℚ) (xmin xmax : Option ℚ)
    (flipx : Bool) : List ℚ :=
  let limits := pdos.map (fun ed => auto_limits ((ed.2.lookup "energy").getD []) 0.05)
  let xmax0 := xmax.getD (maxQ (limits.map Prod.snd))
  let xmin0 := xmin.getD (minQ (limits.map Prod.fst))
  let lims := if flipx then (-xmax0, -xmin0) else (xmin0, xmax0)
  npArange lims.1 lims.2 sampling

/-- The per-element resampling loop of `process_pdos`: the output mapping
starts with the energy entry holding the shared grid; every other label is
paired with the element energies (`np.column_stack`), resampled with the
given resampler, and passed through the broadening stage.  The resampler is
a parameter because the two revisions call different ones. -/
def resample_element (fns : FloatFns)
    (resampleFn : List (ℚ × ℚ) → List ℚ → Except String (List ℚ))
    (x_values : List ℚ) (d : ℚ) (lor gauss : Option ℚ)
    (el_data : List (String × List ℚ)) :
    Except String (List (String × List ℚ)) :=
  el_data.foldlM
    (fun acc orbData =>
      if orbData.1 = "energy" then Except.ok acc
      else
        (resampleFn (((el_data.lookup "energy").getD []).zip orbData.2) x_values).map
          (fun res => acc ++ [(orbData.1, apply_broadening fns res d lor gauss)]))
    [("energy", x_values)]

/-- The resampling portion of `process_pdos`, common to both revisions:
empty input fails (the `zip(*limits)` unpacking), otherwise every element is
resampled onto the shared grid and broadened. -/
def process_pdos_resampled (fns : FloatFns)
    (resampleFn : List (ℚ × ℚ) → List ℚ → Except String (List ℚ))
    (pdos : PdosData) (sampling : ℚ) (xmin xmax : Option ℚ) (flipx : Bool)
    (lor gauss : Option ℚ) : Except String PdosData :=
  if pdos.isEmpty then Except.error "ValueError: not enough values to unpack"
  else
    let x_values := pdos_x_values pdos sampling xmin xmax flipx
    pdos.mapM (fun ed =>
      (resample_element fns resampleFn x_values sampling lor gauss ed.2).map
        (fun w => (ed.1, w)))

/-- Checkpoint revision of `process_pdos` (lines 126-252), from the point
where the collaborator readers have produced the per-element data: resample
and broaden onto the shared grid, apply cross-section weights when a
weighting is given (the table itself comes from the excluded
`get_cross_sections` reader), and return the resulting OrbitalSeries. -/
def process_pdos (fns : FloatFns) (pdos : PdosData) (sampling : ℚ)
    (xmin xmax : Option ℚ) (flipx : Bool) (lor gauss : Option ℚ)
    (weighting : Option CrossSections) : Except String PdosData := do
  let resampled ← process_pdos_resampled fns (fun xy g => xy_to_1d xy g false)
    pdos sampling xmin xmax flipx lor gauss
  match weighting with
  | some cs => apply_orbital_weights resampled cs
  | none => Except.ok resampled

/-- A uniform grid with a given origin, step and length, as used to state
the resampling claims (the grids built by the drivers through `npArange`
have this shape). -/
def uniformGrid (xmin d : ℚ) (n : ℕ) : List ℚ :=
  (List.range n).map (fun (k : ℕ) => xmin + (k : ℚ) * d)

/-- Old-revision `process_pdos` (`galore/__init__.py` lines 119-229): the
same pipeline with the spike-only resampler and the fatal weighting
function, but the function body ends without a return statement, so on
success Python returns `None` - modelled as `Except.ok none`. -/
def process_pdos_v0 (fns : FloatFns) (pdos : PdosData) (sampling : ℚ)
    (xmin xmax : Option ℚ) (flipx : Bool) (lor gauss : Option ℚ)
    (weighting : Option CrossSections) : Except String (Option PdosData) := do
  let resampled ← process_pdos_resampled fns (fun xy g => xy_to_1d_v0 xy g)
    pdos sampling xmin xmax flipx lor gauss
  let _final ← match weighting with
    | some cs => apply_orbital_weights_v0 resampled cs
    | none => Except.ok resampled
  Except.ok none

end Galore

namespace Galore

/-! ### Helper lemmas about the spike-placement pass -/

theorem spikeStep_length (grid : List ℚ) (d : ℚ) (acc : List ℚ) (p : ℚ × ℚ) :
    (spikeStep grid d acc p).length = acc.length := by
  simp only [spikeStep, addSpike]
  split <;> simp

theorem spike_foldl_length (grid : List ℚ) (d : ℚ) (xy : List (ℚ × ℚ)) (acc : List ℚ) :
    (xy.foldl (spikeStep grid d) acc).length = acc.length := by
  induction xy generalizing acc with
  | nil => rfl
  | cons p xs ih => rw [List.foldl_cons, ih, spikeStep_length]

theorem searchsorted_le_length (grid : List ℚ) (v : ℚ) :
    searchsorted grid v ≤ grid.length := by
  unfold searchsorted
  exact (List.takeWhile_sublist _).length_le

theorem spike_foldl_getD (grid : List ℚ) (d : ℚ) (xy : List (ℚ × ℚ)) (acc : List ℚ)
    (hlen : acc.length = grid.length) (j : ℕ) (hj0 : 0 < j) (hjn : j < grid.length) :
    (xy.foldl (spikeStep grid d) acc).getD j 0 =
      acc.getD j 0 +
        ((xy.filter (fun p => searchsorted grid (p.1 - 0.5 * d) == j)).map Prod.snd).sum := by
  induction xy generalizing acc with
  | nil => simp
  | cons p xs ih =>
    rw [List.foldl_cons, ih _ (by rw [spikeStep_length]; exact hlen)]
    by_cases hdrop : searchsorted grid (p.1 - 0.5 * d) = 0 ∨
        searchsorted grid (p.1 - 0.5 * d) = grid.length
    · have hne : (searchsorted grid (p.1 - 0.5 * d) == j) = false := by
        rcases hdrop with h0 | hn
        · rw [h0]
          simp only [beq_eq_false_iff_ne, ne_eq]
          omega
        · rw [hn]
          simp only [beq_eq_false_iff_ne, ne_eq]
          omega
      simp only [spikeStep, if_pos hdrop, List.filter_cons, hne, Bool.false_eq_true, if_false]
    · by_cases heq : searchsorted grid (p.1 - 0.5 * d) = j
      · have hkeep : (searchsorted grid (p.1 - 0.5 * d) == j) = true := by simp [heq]
        have hjl : j < acc.length := by omega
        simp only [spikeStep, if_neg hdrop, List.filter_cons, hkeep, if_true, addSpike,
          List.map_cons, List.sum_cons]
        rw [heq, List.getD_eq_getElem?_getD, List.getElem?_set_self hjl]
        simp only [Option.getD_some]
        ring
      · have hne : (searchsorted grid (p.1 - 0.5 * d) == j) = false := by simp [heq]
        simp only [spikeStep, if_neg hdrop, List.filter_cons, hne, Bool.false_eq_true, if_false,
          addSpike]
        rw [List.getD_eq_getElem?_getD, List.getElem?_set_ne heq, ← List.getD_eq_getElem?_getD]

theorem spike_foldl_getD_zero (grid : List ℚ) (d : ℚ) (xy : List (ℚ × ℚ)) (acc : List ℚ) :
    (xy.foldl (spikeStep grid d) acc).getD 0 0 = acc.getD 0 0 := by
  induction xy generalizing acc with
  | nil => rfl
  | cons p xs ih =>
    rw [List.foldl_cons, ih]
    simp only [spikeStep, addSpike]
    split
    · rfl
    · rename_i hcond
      rw [List.getD_eq_getElem?_getD, List.getElem?_set_ne, ← List.getD_eq_getElem?_getD]
      intro h0
      exact (not_or.mp hcond).1 h0

/-! ### Helper lemmas about uniform grids -/

theorem uniformGrid_length (xmin d : ℚ) (n : ℕ) : (uniformGrid xmin d n).length = n := by
  rw [uniformGrid, List.length_map, List.length_range]

theorem uniformGrid_getD (xmin d : ℚ) (n : ℕ) (i : ℕ) (hi : i < n) :
    (uniformGrid xmin d n).getD i 0 = xmin + (i : ℚ) * d := by
  rw [uniformGrid, List.getD_eq_getElem?_getD, List.getElem?_map, List.getElem?_range hi]
  rfl

theorem uniformGrid_step (xmin d : ℚ) (n : ℕ) (hn : 2 ≤ n) :
    (uniformGrid xmin d n).getD 1 0 - (uniformGrid xmin d n).getD 0 0 = d := by
  rw [uniformGrid_getD xmin d n 1 (by omega), uniformGrid_getD xmin d n 0 (by omega)]
  push_cast
  ring

/-! ### Helper lemmas about the piecewise-linear interpolant -/

theorem interpPts_cons_cons (p q : ℚ × ℚ) (rest : List (ℚ × ℚ)) (t : ℚ) :
    interpPts (p :: q :: rest) t =
      if t < p.1 then 0
      else if t ≤ q.1 then p.2 + (q.2 - p.2) * (t - p.1) / (q.1 - p.1)
      else interpPts (q :: rest) t := rfl

theorem interpPts_lt_first (p : ℚ × ℚ) (rest : List (ℚ × ℚ)) (t : ℚ) (h : t < p.1) :
    interpPts (p :: rest) t = 0 := by
  cases rest with
  | nil => rfl
  | cons q rs => rw [interpPts_cons_cons, if_pos h]

theorem interpPts_gt_last (pts : List (ℚ × ℚ)) (t : ℚ) (h : ∀ p ∈ pts, p.1 < t) :
    interpPts pts t = 0 := by
  induction pts with
  | nil => rfl
  | cons p tail ih =>
    cases tail with
    | nil => rfl
    | cons q rest =>
      have hp : p.1 < t := h p (by simp)
      have hq : q.1 < t := h q (by simp)
      rw [interpPts_cons_cons, if_neg (not_lt.mpr (le_of_lt hp)), if_neg (not_le.mpr hq)]
      exact ih (fun r hr => h r (List.mem_cons_of_mem p hr))

theorem interpPts_node (pts : List (ℚ × ℚ))
    (hs : pts.Pairwise (fun a b => a.1 < b.1)) (h2 : 2 ≤ pts.length)
    (p : ℚ × ℚ) (hp : p ∈ pts) : interpPts pts p.1 = p.2 := by
  induction pts with
  | nil => simp at hp
  | cons a tail ih =>
    cases tail with
    | nil => simp at h2
    | cons q rest =>
      have haq : a.1 < q.1 := (List.pairwise_cons.mp hs).1 q (by simp)
      rcases List.mem_cons.mp hp with rfl | htail
      · rw [interpPts_cons_cons, if_neg (lt_irrefl p.1), if_pos (le_of_lt haq)]
        ring_nf
      · have hat : a.1 < p.1 := (List.pairwise_cons.mp hs).1 p htail
        rcases List.mem_cons.mp htail with rfl | hrest
        · rw [interpPts_cons_cons, if_neg (not_lt.mpr (le_of_lt hat)), if_pos (le_refl p.1)]
          have hne : p.1 - a.1 ≠ 0 := sub_ne_zero.mpr (ne_of_gt hat)
          rw [mul_div_assoc, div_self hne]
          ring
        · have hqp : q.1 < p.1 :=
            (List.pairwise_cons.mp (List.pairwise_cons.mp hs).2).1 p hrest
          rw [interpPts_cons_cons, if_neg (not_lt.mpr (le_of_lt hat)),
            if_neg (not_le.mpr hqp)]
          exact ih (List.pairwise_cons.mp hs).2
            (by have := List.length_pos.mpr (List.ne_nil_of_mem hrest); simp; omega) htail

/-! ### Helper lemmas about sorting -/

theorem sortByX_of_sorted (xy : List (ℚ × ℚ))
    (hs : xy.Pairwise (fun a b => a.1 < b.1)) : sortByX xy = xy := by
  induction xy with
  | nil => rfl
  | cons p rest ih =>
    have htail := (List.pairwise_cons.mp hs).2
    simp only [sortByX, ih htail]
    cases rest with
    | nil => rfl
    | cons q rs =>
      have hpq : p.1 < q.1 := (List.pairwise_cons.mp hs).1 q (by simp)
      simp [insertByX, le_of_lt hpq]

theorem spikeResample_length (grid : List ℚ) (d : ℚ) (xy : List (ℚ × ℚ)) :
    (spikeResample grid d xy).length = grid.length := by
  unfold spikeResample
  rw [spike_foldl_length]
  simp

end Galore

namespace Galore

/-! ### Helper lemmas about the convolver -/

theorem npConvolve_length (a v : List ℚ) :
    (npConvolve a v).length = a.length + v.length - 1 := by
  rw [npConvolve, List.length_map, List.length_range]

theorem npArange_length (start stop step : ℚ) :
    (npArange start stop step).length = ⌈(stop - start) / step⌉₊ := by
  rw [npArange, List.length_map, List.length_range]

theorem effPad_pos (width : ℚ) (pad : Option ℚ) (hw : 0 < width)
    (hp : ∀ p ∈ pad, 0 < p) : 0 < effPad width pad := by
  cases pad with
  | none => simpa [effPad, truthy] using by positivity
  | some v =>
    by_cases hv : v = 0
    · subst hv
      simpa [effPad, truthy] using by positivity
    · have hv0 : 0 < v := hp v rfl
      simpa [effPad, truthy, hv] using hv0

theorem pad_points_lt_kernel (p d : ℚ) (hp : 0 < p) (hd : 0 < d) :
    ⌊p / d⌋₊ < ⌈(p - -p) / d⌉₊ := by
  have hq : 0 < p / d := div_pos hp hd
  have h1 : (⌊p / d⌋₊ : ℚ) ≤ p / d := Nat.floor_le (le_of_lt hq)
  have h2 : (p - -p) / d = 2 * (p / d) := by ring
  have h3 : (p / d : ℚ) < 2 * (p / d) := by linarith
  have h4 : (2 * (p / d) : ℚ) ≤ ⌈2 * (p / d)⌉₊ := Nat.le_ceil _
  have : (⌊p / d⌋₊ : ℚ) < (⌈(p - -p) / d⌉₊ : ℚ) := by
    rw [h2]
    linarith
  exact_mod_cast this

theorem broaden_length (fns : FloatFns) (data : List ℚ) (dist : Dist) (width : ℚ)
    (pad : Option ℚ) (d : ℚ) (hd : 0 < d) (hw : 0 < width) (hp : ∀ p ∈ pad, 0 < p) :
    (broaden fns data dist width pad d).length = data.length := by
  have hpos := effPad_pos width pad hw hp
  have hlt := pad_points_lt_kernel (effPad width pad) d hpos hd
  have hker : ∀ kernel : List ℚ, kernel.length = ⌈(effPad width pad - -effPad width pad) / d⌉₊ →
      (((npConvolve kernel data).drop ⌊effPad width pad / d⌋₊).take data.length).length
        = data.length := by
    intro kernel hk
    rw [List.length_take, List.length_drop, npConvolve_length, hk]
    omega
  cases dist with
  | lorentzian =>
    exact hker _ (by rw [List.length_map, npArange_length])
  | gaussian =>
    exact hker _ (by rw [List.length_map, npArange_length])

/-! ### Helper lemmas about the broadening stage -/

theorem npCopy_eq (data : List ℚ) : npCopy data = data := List.map_id data

theorem apply_broadening_none_none (fns : FloatFns) (data : List ℚ) (d : ℚ) :
    apply_broadening fns data d none none = npCopy data := by
  simp [apply_broadening, truthy]

theorem apply_broadening_zero_lor (fns : FloatFns) (data : List ℚ) (d : ℚ)
    (gauss : Option ℚ) :
    apply_broadening fns data d (some 0) gauss = apply_broadening fns data d none gauss := by
  simp [apply_broadening, truthy]

theorem apply_broadening_zero_gauss (fns : FloatFns) (data : List ℚ) (d : ℚ)
    (lor : Option ℚ) :
    apply_broadening fns data d lor (some 0) = apply_broadening fns data d lor none := by
  simp [apply_broadening, truthy]

end Galore

namespace Galore

theorem replicate_getD_zero (m j : ℕ) : (List.replicate m (0 : ℚ)).getD j 0 = 0 := by
  rw [List.getD_eq_getElem?_getD, List.getElem?_replicate]
  split <;> rfl

theorem spikeResample_getD_zero (grid : List ℚ) (d : ℚ) (xy : List (ℚ × ℚ)) :
    (spikeResample grid d xy).getD 0 0 = 0 := by
  rw [spikeResample, spike_foldl_getD_zero, replicate_getD_zero]

theorem spikeResample_getD (grid : List ℚ) (d : ℚ) (xy : List (ℚ × ℚ)) (j : ℕ)
    (hj0 : 0 < j) (hjn : j < grid.length) :
    (spikeResample grid d xy).getD j 0 =
      ((xy.filter (fun p => searchsorted grid (p.1 - 0.5 * d) == j)).map Prod.snd).sum := by
  rw [spikeResample, spike_foldl_getD grid d xy _ (by simp) j hj0 hjn, replicate_getD_zero,
    zero_add]

end Galore

namespace Galore

/-! ### Claim theorems -/

/-- Claim C1: the specification says `process_pdos` returns (does not return
None) the resampled, broadened and optionally weighted OrbitalSeries.  The
importable module `galore/__init__.py` computes that series but its
`process_pdos` body has no return statement, so the Python function always
returns `None` - contradicting its own docstring (which promises a dict) and
the shipped test `test_process_pdos`.  First conjunct: the old-revision
pipeline never yields a table.  The remaining conjuncts evaluate a concrete
run: the old revision returns `None` while the checkpoint revision of the
same function returns the expected OrbitalSeries. -/
theorem claim_c1 :
    (∀ fns pdos sampling xmin xmax flipx lor gauss weighting t,
        process_pdos_v0 fns pdos sampling xmin xmax flipx lor gauss weighting
          ≠ Except.ok (some t))
    ∧ process_pdos_v0 idFns [("Na", [("energy", [0, 1]), ("s", [1, 2])])] 1 (some 0) (some 2)
        false none none none = Except.ok none
    ∧ process_pdos idFns [("Na", [("energy", [0, 1]), ("s", [1, 2])])] 1 (some 0) (some 2)
        false none none none
      = Except.ok [("Na", [("energy", [(0 : ℚ), 1]), ("s", [1, 2])])] := by
  refine ⟨?_, ?_, ?_⟩
  · intro fns pdos sampling xmin xmax flipx lor gauss weighting t h
    simp only [process_pdos_v0, bind, Except.bind] at h
    cases hres : process_pdos_resampled fns (fun xy g => xy_to_1d_v0 xy g) pdos sampling
        xmin xmax flipx lor gauss with
    | error e => rw [hres] at h; simp at h
    | ok v =>
      rw [hres] at h
      dsimp only at h
      cases weighting with
      | none => simp at h
      | some cs =>
        dsimp only at h
        cases hw : apply_orbital_weights_v0 v cs with
        | error e => rw [hw] at h; simp at h
        | ok w => rw [hw] at h; simp at h
  · norm_num [process_pdos_v0, process_pdos_resampled, pdos_x_values,
      auto_limits, minQ, maxQ, npArange, resample_element,
      xy_to_1d_v0, spikeResample, spikeStep, searchsorted, addSpike,
      apply_broadening, npCopy, truthy, List.range_succ, List.takeWhile,
      List.foldlM, List.foldl, List.mapM, List.mapM.loop, List.lookup, bind, Except.bind,
      pure, Except.map, List.map]
    simp [Except.pure]
  · norm_num [process_pdos, process_pdos_resampled, pdos_x_values,
      auto_limits, minQ, maxQ, npArange, resample_element,
      xy_to_1d, sortByX, insertByX, interpPts,
      apply_broadening, npCopy, truthy, List.range_succ,
      List.foldlM, List.mapM, List.mapM.loop, List.lookup, bind, Except.bind, pure,
      Except.map, List.map]
    simp [Except.pure]

/-- Witness for C1: the old-revision `process_pdos` at the concrete input of
the theorem does not return the OrbitalSeries it computed. -/
theorem claim_c1_witness :
    process_pdos_v0 idFns [("Na", [("energy", [0, 1]), ("s", [1, 2])])] 1 (some 0) (some 2)
        false none none none
      ≠ Except.ok (some [("Na", [("energy", [0, 1]), ("s", [1, 2])])]) :=
  claim_c1.1 idFns [("Na", [("energy", [0, 1]), ("s", [1, 2])])] 1 (some 0) (some 2)
    false none none none [("Na", [("energy", [0, 1]), ("s", [1, 2])])]

/-- Claim C2: the specification says the Lorentzian kernel is
`0.5*fwhm / (pi * ((f-f0)^2 + (0.5*fwhm)^2))`, with `pi` multiplying the
whole sum, and gives the value at `f=3, f0=1, fwhm=3*2.35482`.  The
importable module parenthesises wrongly (`pi` multiplies only `(f-f0)^2`),
contradicting the shipped test `test_lorentzian` and the checkpoint
revision.  First conjunct: for every positive width the old revision never
equals the specified expression; second: the checkpoint revision does take
the specified value (within 1e-6); third: the old revision is above 0.14 at
the test point, far from the specified 0.0682386. -/
theorem claim_c2 :
    (∀ f f0 fwhm : ℚ, 0 < fwhm →
        lorentzian_v0 f f0 fwhm ≠ 0.5 * fwhm / (np_pi * ((f - f0) ^ 2 + (0.5 * fwhm) ^ 2)))
    ∧ |lorentzian 3 1 (3 * 2.35482) - 0.068238617255| < 1 / 1000000
    ∧ 0.14 < lorentzian_v0 3 1 (3 * 2.35482) := by
  refine ⟨?_, ?_, ?_⟩
  · intro f f0 fwhm hw heq
    have hpi : (1 : ℚ) < np_pi := by norm_num [np_pi]
    have hh : 0 < (0.5 * fwhm) ^ 2 := by positivity
    have hsq : 0 ≤ (f - f0) ^ 2 := sq_nonneg _
    have hA : 0 < np_pi * (f - f0) ^ 2 + (0.5 * fwhm) ^ 2 := by nlinarith
    have hB : 0 < np_pi * ((f - f0) ^ 2 + (0.5 * fwhm) ^ 2) := by nlinarith
    have hAB : np_pi * (f - f0) ^ 2 + (0.5 * fwhm) ^ 2
        < np_pi * ((f - f0) ^ 2 + (0.5 * fwhm) ^ 2) := by nlinarith
    have hnum : (0 : ℚ) < 0.5 * fwhm := by positivity
    rw [lorentzian_v0, div_eq_div_iff (ne_of_gt hA) (ne_of_gt hB)] at heq
    have hba := mul_left_cancel₀ (ne_of_gt hnum) heq
    exact absurd hba.symm (ne_of_lt hAB)
  · rw [abs_sub_lt_iff]
    constructor <;> norm_num [lorentzian, np_pi]
  · norm_num [lorentzian_v0, np_pi]

/-- Witness for C2: the first conjunct applied at the test point of the
specification. -/
theorem claim_c2_witness :
    lorentzian_v0 3 1 (3 * 2.35482)
      ≠ 0.5 * (3 * 2.35482) / (np_pi * ((3 - 1) ^ 2 + (0.5 * (3 * 2.35482)) ^ 2)) :=
  claim_c2.1 3 1 (3 * 2.35482) (by norm_num)

end Galore

namespace Galore

/-- Claim C3: in spike mode, on a uniform grid of length `n` and step `d > 0`,
each point is located at `searchsorted(grid, x - 0.5*d)`; points located at 0
or `n` are dropped, the others have their y-values accumulated into the
located cell.  The conjuncts: the resampler returns the spike pass at step
`d`; the output has length `n`; cell 0 never accumulates anything; every
interior cell holds the sum of the y-values of the points located there; and
the concrete example of the specification. -/
theorem claim_c3 (xy : List (ℚ × ℚ)) (xmin d : ℚ) (n : ℕ) (_hd : 0 < d) (hn : 2 ≤ n) :
    xy_to_1d xy (uniformGrid xmin d n) true
        = Except.ok (spikeResample (uniformGrid xmin d n) d xy)
    ∧ (spikeResample (uniformGrid xmin d n) d xy).length = n
    ∧ (spikeResample (uniformGrid xmin d n) d xy).getD 0 0 = 0
    ∧ (∀ j, 0 < j → j < n →
        (spikeResample (uniformGrid xmin d n) d xy).getD j 0 =
          ((xy.filter
              (fun p => searchsorted (uniformGrid xmin d n) (p.1 - 0.5 * d) == j)).map
            Prod.snd).sum)
    ∧ xy_to_1d [(2.1, 0.6), (4.3, 0.2), (5.1, 0.3)] [0, 1, 2, 3, 4, 5] true
        = Except.ok [0, 0, 0.6, 0, 0.2, 0.3] := by
  have hlen : (uniformGrid xmin d n).length = n := uniformGrid_length xmin d n
  refine ⟨?_, ?_, ?_, ?_, ?_⟩
  · simp only [xy_to_1d, hlen, if_pos hn, if_true]
    rw [uniformGrid_step xmin d n hn]
  · rw [spikeResample_length, hlen]
  · exact spikeResample_getD_zero _ d xy
  · intro j hj0 hjn
    exact spikeResample_getD _ d xy j hj0 (by rw [hlen]; exact hjn)
  · norm_num [xy_to_1d, spikeResample, spikeStep, searchsorted, addSpike, List.takeWhile,
      List.foldl, List.replicate]

/-- Witness for C3: the interior-cell characterisation instantiated at the
specification example, cell 2. -/
theorem claim_c3_witness :
    (spikeResample (uniformGrid 0 1 6) 1 [(2.1, 0.6), (4.3, 0.2), (5.1, 0.3)]).getD 2 0 =
      (([(2.1, 0.6), (4.3, 0.2), (5.1, 0.3)].filter
          (fun p => searchsorted (uniformGrid 0 1 6) (p.1 - 0.5 * 1) == 2)).map
        Prod.snd).sum :=
  (claim_c3 [(2.1, 0.6), (4.3, 0.2), (5.1, 0.3)] 0 1 6 (by norm_num)
      (by norm_num)).2.2.2.1 2 (by norm_num) (by norm_num)

/-- Claim C4: the specification says the default mode (spikes false) is
linear interpolation with zero fill outside the data range, with the
concrete example resampling [[1,0.5],[3,1.5]] onto [0..5].  The checkpoint
revision of `xy_to_1d` (and the shipped test `test_xy_to_1d_linear`) agree -
conjuncts 1, 4 - but the importable module has no interpolate mode at all:
its `xy_to_1d` accepts no mode argument and always spike-places, producing a
different array at the very example (conjuncts 2, 3).  Conjunct 4 is the
general statement for the checkpoint resampler: on an x-sorted point set it
returns the piecewise-linear interpolant at every grid point, its value is 0
strictly outside the data range and matches the data at every node. -/
theorem claim_c4 :
    xy_to_1d [(1, 0.5), (3, 1.5)] [0, 1, 2, 3, 4, 5] false
        = Except.ok [0, 0.5, 1, 1.5, 0, 0]
    ∧ xy_to_1d_v0 [(1, 0.5), (3, 1.5)] [0, 1, 2, 3, 4, 5]
        = Except.ok [0, 0.5, 0, 1.5, 0, 0]
    ∧ ([0, 0.5, 1, 1.5, 0, 0] : List ℚ) ≠ [0, 0.5, 0, 1.5, 0, 0]
    ∧ (∀ (xy : List (ℚ × ℚ)) (grid : List ℚ),
        xy.Pairwise (fun a b => a.1 < b.1) → 2 ≤ xy.length → 2 ≤ grid.length →
          xy_to_1d xy grid false = Except.ok (grid.map (interpPts xy))
          ∧ (∀ t : ℚ, ((∀ p ∈ xy, t < p.1) ∨ (∀ p ∈ xy, p.1 < t)) → interpPts xy t = 0)
          ∧ (∀ p ∈ xy, interpPts xy p.1 = p.2)) := by
  refine ⟨?_, ?_, ?_, ?_⟩
  · norm_num [xy_to_1d, sortByX, insertByX, interpPts, List.map]
  · norm_num [xy_to_1d_v0, spikeResample, spikeStep, searchsorted, addSpike, List.takeWhile,
      List.foldl, List.replicate]
  · simp only [ne_eq, List.cons.injEq]
    norm_num
  · intro xy grid hs h2 hg
    refine ⟨?_, ?_, ?_⟩
    · simp only [xy_to_1d, if_pos hg, Bool.false_eq_true, if_false,
        if_neg (not_lt.mpr h2), sortByX_of_sorted xy hs]
    · intro t hcase
      rcases hcase with hbelow | habove
      · cases xy with
        | nil => rfl
        | cons p rest => exact interpPts_lt_first p rest t (hbelow p (by simp))
      · exact interpPts_gt_last xy t habove
    · exact interpPts_node xy hs h2

/-- Witness for C4: the general conjunct instantiated at the specification
example, recovering the node values at (1, 0.5). -/
theorem claim_c4_witness :
    interpPts [(1, 0.5), (3, 1.5)] 1 = 0.5 :=
  (claim_c4.2.2.2 [(1, 0.5), (3, 1.5)] [0, 1, 2, 3, 4, 5]
      (by norm_num) (by norm_num) (by norm_num)).2.2 (1, 0.5) (by norm_num)

/-- Claim C5: `broaden` always returns an array of the input length - the
slice of the full convolution starting at `int(pad/d)` with length
`len(data)` - so broadening preserves grid alignment.  Hypotheses mirror
the claim: positive step and width, the pad either omitted (defaulting to
`width*20`) or supplied positive, and non-empty data (the embedded slice
arithmetic does not even need non-emptiness, but the claim assumes it). -/
theorem claim_c5 (fns : FloatFns) (data : List ℚ) (dist : Dist) (width : ℚ)
    (pad : Option ℚ) (d : ℚ) (hd : 0 < d) (hw : 0 < width) (hp : ∀ p ∈ pad, 0 < p)
    (_hne : data ≠ []) :
    (broaden fns data dist width pad d).length = data.length :=
  broaden_length fns data dist width pad d hd hw hp

/-- Witness for C5: a concrete Lorentzian broadening of a three-point series
with explicit pad 1 and step 1 keeps length 3. -/
theorem claim_c5_witness :
    (broaden idFns [1, 2, 3] Dist.lorentzian 2 (some 1) 1).length = 3 := by
  have h := claim_c5 idFns [1, 2, 3] Dist.lorentzian 2 (some 1) 1 (by norm_num) (by norm_num)
    (by intro p hp; simp only [Option.mem_def, Option.some.injEq] at hp; rw [← hp]; norm_num)
    (by simp)
  simpa using h

end Galore

namespace Galore

/-- Claim C6: the specification says a missing orbital key in the
cross-section entry drops the orbital with a warning and processing
continues, a null weight drops it silently, other orbitals are scaled and
the energy entry is copied through unweighted.  The checkpoint revision
behaves exactly so (first conjunct, exercising all four cases: energy copied,
s scaled by 2, p dropped on null, d dropped on missing key).  The importable
module instead re-raises the KeyError for the missing key, so the same input
is fatal there (second conjunct) - the claim matches the newer revision and
the error-handling policy of the specification, and the live module
contradicts it. -/
theorem claim_c6 :
    apply_orbital_weights
        [("Na", [("energy", [1, 2]), ("s", [1, 2]), ("p", [3, 4]), ("d", [5, 6])])]
        [("Na", [("s", some 2), ("p", none)])]
      = Except.ok [("Na", [("energy", [1, 2]), ("s", [(2 : ℚ), 4])])]
    ∧ apply_orbital_weights_v0
        [("Na", [("energy", [1, 2]), ("s", [1, 2]), ("p", [3, 4]), ("d", [5, 6])])]
        [("Na", [("s", some 2), ("p", none)])]
      = Except.error "KeyError: could not find cross-section data" := by
  constructor
  · norm_num [apply_orbital_weights, List.mapM, List.mapM.loop, List.lookup, List.foldl,
      List.map]
    simp [Except.pure]
  · norm_num [apply_orbital_weights_v0, List.mapM, List.mapM.loop, List.lookup, List.foldlM,
      bind, Except.bind, pure, List.map]
    simp [Except.pure]

/-- Claim C7 (amended): `flipx=True` does not negate the data x-values; it
only reinterprets the supplied limits, sampling on `arange(-xmax, -xmin, d)`
and resampling the unmodified series onto that grid (negation for display is
left to the plotting and writing collaborators).  Equivalently, a flipped run
equals an unflipped run with the limits swapped and negated; and the flipped
grid is `npArange (-xmax) (-xmin) d`. -/
theorem claim_c7 (fns : FloatFns) (pdos : PdosData) (sampling a b : ℚ)
    (lor gauss : Option ℚ) (weighting : Option CrossSections) :
    process_pdos fns pdos sampling (some a) (some b) true lor gauss weighting
        = process_pdos fns pdos sampling (some (-b)) (some (-a)) false lor gauss weighting
    ∧ pdos_x_values pdos sampling (some a) (some b) true = npArange (-b) (-a) sampling :=
  ⟨rfl, rfl⟩

/-- Counterexample for C7: with limits 0..2, step 1 and flipx, the element
series with energies [-2,-1] and values [5,7] is returned resampled
unchanged onto the flipped grid [-2,-1] (giving [5,7]), whereas resampling
the x-negated series onto that grid gives [0,0] - so the returned values do
not equal the claimed resampling of the negated series. -/
theorem claim_c7_counterexample :
    process_pdos idFns [("A", [("energy", [-2, -1]), ("s", [5, 7])])] 1 (some 0) (some 2)
        true none none none
      = Except.ok [("A", [("energy", [-2, -1]), ("s", [(5 : ℚ), 7])])]
    ∧ xy_to_1d [(2, 5), (1, 7)] [-2, -1] false = Except.ok [0, 0]
    ∧ ([(5 : ℚ), 7] : List ℚ) ≠ [0, 0] := by
  refine ⟨?_, ?_, ?_⟩
  · norm_num [process_pdos, process_pdos_resampled, pdos_x_values,
      auto_limits, minQ, maxQ, npArange, resample_element,
      xy_to_1d, sortByX, insertByX, interpPts,
      apply_broadening, npCopy, truthy, List.range_succ,
      List.foldlM, List.mapM, List.mapM.loop, List.lookup, bind, Except.bind, pure,
      Except.map, List.map]
    simp [Except.pure]
  · norm_num [xy_to_1d, sortByX, insertByX, interpPts, List.map]
  · simp only [ne_eq, List.cons.injEq]
    norm_num

/-- Claim C8 (amended): an empty point set is rejected only by the
interpolate branch (the interpolant constructor requires at least two
points); the spike branch silently returns the all-zero array of grid
length. -/
theorem claim_c8 (grid : List ℚ) (hg : 2 ≤ grid.length) :
    xy_to_1d [] grid true = Except.ok (List.replicate grid.length 0)
    ∧ xy_to_1d [] grid false
        = Except.error "ValueError: x and y arrays must have at least 2 entries" := by
  constructor
  · simp only [xy_to_1d, if_pos hg, if_true]
    rfl
  · simp only [xy_to_1d, if_pos hg, Bool.false_eq_true, if_false, List.length_nil]
    norm_num

/-- Witness for C8 at the concrete grid [0,1,2]. -/
theorem claim_c8_witness :
    xy_to_1d [] [0, 1, 2] true = Except.ok (List.replicate ([0, 1, 2] : List ℚ).length 0)
    ∧ xy_to_1d [] [0, 1, 2] false
        = Except.error "ValueError: x and y arrays must have at least 2 entries" :=
  claim_c8 [0, 1, 2] (by norm_num)

/-- Counterexample for C8: in spike mode the resampler does not fail on an
empty series - it silently returns a result, refuting the claim that empty
input fails in both modes. -/
theorem claim_c8_counterexample :
    xy_to_1d ([] : List (ℚ × ℚ)) [0, 1, 2] true = Except.ok [0, 0, 0] := by
  norm_num [xy_to_1d, spikeResample, List.replicate]

/-- Claim C9: with both widths None the broadening stage returns the values
unchanged, and does so through `data.copy()` - modelled by `npCopy`, a
structurally fresh list with equal values (reference identity itself is not
observable in this embedding). -/
theorem claim_c9 (fns : FloatFns) (data : List ℚ) (d : ℚ) :
    apply_broadening fns data d none none = npCopy data ∧ npCopy data = data :=
  ⟨apply_broadening_none_none fns data d, npCopy_eq data⟩

/-- Claim C10: the widths are tested for Python truthiness, so a width of
0.0 behaves exactly like None in the broadening stage and in the whole
`process_pdos` pipeline - the stage is skipped and no kernel is built. -/
theorem claim_c10 (fns : FloatFns) (data : List ℚ) (d : ℚ) (lor gauss : Option ℚ)
    (pdos : PdosData) (sampling : ℚ) (xmin xmax : Option ℚ) (flipx : Bool)
    (weighting : Option CrossSections) :
    apply_broadening fns data d (some 0) gauss = apply_broadening fns data d none gauss
    ∧ apply_broadening fns data d lor (some 0) = apply_broadening fns data d lor none
    ∧ process_pdos fns pdos sampling xmin xmax flipx (some 0) gauss weighting
        = process_pdos fns pdos sampling xmin xmax flipx none gauss weighting
    ∧ process_pdos fns pdos sampling xmin xmax flipx lor (some 0) weighting
        = process_pdos fns pdos sampling xmin xmax flipx lor none weighting := by
  refine ⟨apply_broadening_zero_lor fns data d gauss,
    apply_broadening_zero_gauss fns data d lor, ?_, ?_⟩
  · simp only [process_pdos, process_pdos_resampled, resample_element,
      apply_broadening_zero_lor]
  · simp only [process_pdos, process_pdos_resampled, resample_element,
      apply_broadening_zero_gauss]

end Galore
